import Mathlib

/-!
# Verification of the pdbsql streaming virtual-table query engine

Shallow embedding of the core of `pdbsql`:

* the DIA symbol source and the streaming generators of
  `src/include/pdb_tables.hpp` (`SymbolGenerator`, `SymbolByNameGenerator`,
  `SymbolByIdGenerator`, the `GeneratorRowIterator` bridge, and the
  equality-filter factories installed by `TableRegistry`);
* the serialized query dispatcher of
  `src/include/server_query_dispatcher.hpp` (`run`, `worker_thread`,
  `execute_sql`), modelled as an explicit transition system over atomic
  actions (each action is one critical section of the C++ code).

External collaborators (the DIA SDK and the `xsql` framework, which are not
part of the sources verified here) are modelled abstractly: a DIA session is
a list of symbols reachable from the global scope plus a list of symbols
addressable by `symbolById`; every COM getter that can fail is an `Option`.
-/

namespace PdbSql

/-- DIA symbol tags used by the tables (subset of `enum SymTagEnum`). -/
inductive SymTag where
  | Null
  | Function
  | Data
  | PublicSymbol
  | Compiland
  | UDT
  | Enum
  | Typedef
  | Thunk
  | Label
deriving DecidableEq

/-- DIA data kinds (subset of `enum DataKind`). -/
inductive DataKind where
  | Unknown
  | Local
  | StaticLocal
  | Param
  | ObjectPtr
  | FileStatic
  | Global
  | Member
  | StaticMember
  | Constant
deriving DecidableEq

/-- Model of one `IDiaSymbol`.  `symIndexId` and `tag` are the symbol's
intrinsic identity (used by `symbolById` and by `findChildren` filtering);
the getters that the C++ code checks with `SUCCEEDED`/`FAILED`
(`get_name`, `get_undecoratedName`, `get_dataKind`) are `Option`s, `none`
meaning the COM call fails.  Numeric getters whose failure the code ignores
(leaving the zero-initialized out parameter) are plain fields, with `0`
representing the failed read. -/
structure DiaSymbol where
  symIndexId : Nat
  tag : SymTag
  getName : Option String
  getUndecoratedName : Option String
  rva : Nat
  length : Nat
  addressSection : Nat
  addressOffset : Nat
  getDataKind : Option DataKind
deriving DecidableEq

/-- Record type `CachedSymbol` of `pdb_tables.hpp`: the record type of the symbol
tables, zero/empty initialized (`sect` is the C++ `section` field, renamed
because `section` is reserved in Lean). -/
structure CachedSymbol where
  id : Nat := 0
  name : String := ""
  undecorated : String := ""
  rva : Nat := 0
  length : Nat := 0
  symtag : SymTag := .Null
  sect : Nat := 0
  offset : Nat := 0
deriving DecidableEq

/-- Function `safe_symbol_name` (pdb_tables.hpp:146): null symbol or failed
`get_name` gives the empty string. -/
def safe_symbol_name : Option DiaSymbol → String
  | none => ""
  | some s => s.getName.getD ""

/-- Function `extract_symbol` (pdb_tables.hpp:155): build a `CachedSymbol` from a
symbol; a failed getter leaves the zero/empty-initialized field. -/
def extract_symbol : Option DiaSymbol → CachedSymbol
  | none => {}
  | some s =>
    { id := s.symIndexId
      name := s.getName.getD ""
      undecorated := s.getUndecoratedName.getD ""
      rva := s.rva
      length := s.length
      symtag := s.tag
      sect := s.addressSection
      offset := s.addressOffset }

/-- Model of a `PdbSession` (pdb_session.hpp).  `sessionOpen` is
`session_ != nullptr`; `globalScope` is the `global_` symbol's children in
DIA enumeration order (`none` models a null `global_`, e.g. a session that
is not open); `allSymbols` is the set of symbols addressable through
`IDiaSession::symbolById`, which includes symbols that are not children of
the global scope (enum constants, locals, members, ...). -/
structure PdbSessionModel where
  sessionOpen : Bool
  globalScope : Option (List DiaSymbol)
  allSymbols : List DiaSymbol
deriving DecidableEq

/-- The children of the global scope (empty when the scope is unreachable). -/
def PdbSessionModel.globals (sess : PdbSessionModel) : List DiaSymbol :=
  sess.globalScope.getD []

/-- Method `PdbSession::enum_symbols` = `enum_children(global_, tag)`
(pdb_session.hpp:93-105): a null `global_` yields a null enumeration;
otherwise `findChildren(tag, nullptr, nsNone)` filters children by tag. -/
def enum_symbols (sess : PdbSessionModel) (tag : SymTag) : Option (List DiaSymbol) :=
  match sess.globalScope with
  | none => none
  | some gl => some (gl.filter (fun s => s.tag == tag))

/-- Method `PdbSession::find_symbols` (pdb_session.hpp:108-115): a null `global_`
yields a null enumeration; otherwise `findChildren(tag, name,
nsCaseSensitive)` filters children by tag and exact name. -/
def find_symbols (sess : PdbSessionModel) (name : String) (tag : SymTag) : Option (List DiaSymbol) :=
  match sess.globalScope with
  | none => none
  | some gl => some (gl.filter (fun s => s.tag == tag && s.getName.getD "" == name))

/-- Lookup `IDiaSession::symbolById`, guarded by the `session()` null check the
C++ generators perform: looks an id up among all addressable symbols. -/
def symbolById (sess : PdbSessionModel) (id : Nat) : Option DiaSymbol :=
  if sess.sessionOpen then sess.allSymbols.find? (fun s => s.symIndexId == id) else none

/-- State of a streaming symbol generator (`SymbolGenerator` /
`SymbolByNameGenerator`, pdb_tables.hpp:222-253 and 993-1029): the pending
enumeration (`none` = null `symbols_`), the current record, the rowid
(initialized to `-1`), and the started flag. -/
structure SymbolGenState where
  started : Bool := false
  pending : Option (List DiaSymbol) := none
  current : CachedSymbol := {}
  rowid : Int := -1
deriving DecidableEq

/-- Freshly constructed streaming generator. -/
def symbolGenInit : SymbolGenState := {}

/-- One `next()` call of a streaming symbol generator, parameterized by the
enumeration it acquires on first use (`enum_symbols` for `SymbolGenerator`,
`find_symbols` for `SymbolByNameGenerator`): start lazily, return false on
a null or exhausted enumeration, otherwise extract the fetched symbol and
increment the rowid. -/
def streamGenNext (source : Option (List DiaSymbol)) (st : SymbolGenState) :
    Bool × SymbolGenState :=
  let st := if st.started then st else { st with started := true, pending := source }
  match st.pending with
  | none => (false, st)
  | some [] => (false, st)
  | some (s :: rest) =>
    (true, { st with pending := some rest
                     current := extract_symbol (some s)
                     rowid := st.rowid + 1 })

/-- Step `SymbolGenerator::next` (pdb_tables.hpp:233): full scan over
`enum_symbols(tag)`. -/
def symbolGenNext (sess : PdbSessionModel) (tag : SymTag) (st : SymbolGenState) :
    Bool × SymbolGenState :=
  streamGenNext (enum_symbols sess tag) st

/-- Step `SymbolByNameGenerator::next` (pdb_tables.hpp:1009): scan over
`find_symbols(name, tag)`. -/
def byNameNext (sess : PdbSessionModel) (tag : SymTag) (name : String)
    (st : SymbolGenState) : Bool × SymbolGenState :=
  streamGenNext (find_symbols sess name tag) st

/-- State of `SymbolByIdGenerator` (pdb_tables.hpp:1031-1080): emits at most
one record. -/
structure ByIdState where
  emitted : Bool := false
  current : CachedSymbol := {}
  rowid : Int := -1
deriving DecidableEq

/-- Freshly constructed by-id generator. -/
def byIdInit : ByIdState := {}

/-- Step `SymbolByIdGenerator::next` (pdb_tables.hpp:1051): on the first call,
look the id up, check the tag and the optional accept predicate (a null
`accept_` is modelled by `fun _ => true`), and emit the extracted symbol
with rowid 0; every later call returns false. -/
def byIdNext (sess : PdbSessionModel) (id : Nat) (tag : SymTag)
    (accept : DiaSymbol → Bool) (st : ByIdState) : Bool × ByIdState :=
  if st.emitted then (false, st)
  else
    let st1 := { st with emitted := true }
    match symbolById sess id with
    | none => (false, st1)
    | some s =>
      if s.tag ≠ tag then (false, st1)
      else if ¬ accept s then (false, st1)
      else (true, { st1 with current := extract_symbol (some s), rowid := 0 })

/-- Drive a generator to exhaustion (bounded by `fuel`, which every caller
instantiates with a bound on the enumeration length), collecting the
current record after each successful `next()`.  This is the row stream the
`GeneratorRowIterator` bridge hands to the SQL engine. -/
def genCollect {σ : Type} (step : σ → Bool × σ) (cur : σ → CachedSymbol) :
    Nat → σ → List CachedSymbol
  | 0, _ => []
  | n + 1, st =>
    match step st with
    | (false, _) => []
    | (true, st1) => cur st1 :: genCollect step cur n st1

/-- Rows of a full scan of the table backed by `SymbolGenerator(sess, tag)`. -/
def symbolScanRows (sess : PdbSessionModel) (tag : SymTag) : List CachedSymbol :=
  genCollect (symbolGenNext sess tag) (fun st => st.current)
    (sess.globals.length + 1) symbolGenInit

/-- Rows of a name-filtered scan (`SymbolByNameGenerator`). -/
def symbolByNameRows (sess : PdbSessionModel) (tag : SymTag) (name : String) :
    List CachedSymbol :=
  genCollect (byNameNext sess tag name) (fun st => st.current)
    (sess.globals.length + 1) symbolGenInit

/-- Rows of an id-filtered scan (`SymbolByIdGenerator`); fuel 2 covers the
at-most-one row this generator emits. -/
def byIdRows (sess : PdbSessionModel) (id : Nat) (tag : SymTag)
    (accept : DiaSymbol → Bool) : List CachedSymbol :=
  genCollect (byIdNext sess id tag accept) (fun st => st.current) 2 byIdInit

/-- The accept predicate of the `data` table's id filter
(pdb_tables.hpp:2122-2127): a failed `get_dataKind` rejects, otherwise the
kind must be file-static, global or constant. -/
def acceptDataKind (s : DiaSymbol) : Bool :=
  match s.getDataKind with
  | none => false
  | some k => k == .FileStatic || k == .Global || k == .Constant

/-- Full scan of the `data` table (`define_data_table`,
pdb_tables.hpp:1820: generator is `SymbolGenerator(session, SymTagData)`,
with no data-kind restriction). -/
def dataFullScanRows (sess : PdbSessionModel) : List CachedSymbol :=
  symbolScanRows sess .Data

/-- Rows produced by the `data` table's `id = v` filter factory
(pdb_tables.hpp:2117-2132): an out-of-range int64 yields the iterator over
a null generator (no rows); otherwise `SymbolByIdGenerator` with tag
`SymTagData` and the data-kind accept predicate. -/
def dataIdFilterRows (sess : PdbSessionModel) (v : Int) : List CachedSymbol :=
  if v ≤ 0 ∨ 0xFFFFFFFF < v then []
  else byIdRows sess v.toNat .Data acceptDataKind

/-- Rows produced by the `data` table's `name = w` filter factory
(pdb_tables.hpp:2133-2139): `SymbolByNameGenerator` with tag `SymTagData`. -/
def dataNameFilterRows (sess : PdbSessionModel) (w : String) : List CachedSymbol :=
  symbolByNameRows sess .Data w

/-- Rows produced by the `functions` table's `id = v` filter factory
(pdb_tables.hpp:2079-2088): out-of-range values get a null generator,
in-range values a `SymbolByIdGenerator` with tag `SymTagFunction` and no
accept predicate. -/
def functionsIdFilterRows (sess : PdbSessionModel) (v : Int) : List CachedSymbol :=
  if v ≤ 0 ∨ 0xFFFFFFFF < v then []
  else byIdRows sess v.toNat .Function (fun _ => true)

/-- A value written into the SQL engine's output slot.
Modelled from the spec: the `sqlite3_result_int64` / `sqlite3_result_text`
/ `sqlite3_result_null` sinks live in the missing `xsql`/SQLite layer; the
spec's Column Descriptor extractor produces a scalar, text, or null. -/
inductive SqlValue where
  | int (i : Int)
  | text (s : String)
  | null
deriving DecidableEq

/-- A column of a `GeneratorTableDef`.
Modelled from the spec: `xsql`'s `column_int`/`column_int64`/`column_text`
builders (missing code) wrap a total extractor over the record type; the
spec's Column Descriptor is `(name, extractor: T -> Value)`. -/
structure ColumnDef (T : Type) where
  name : String
  get : T → SqlValue

/-- Column read `GeneratorRowIterator::column` (pdb_tables.hpp:938-950): null at EOF,
null for an out-of-range column index, otherwise the declared column
extractor applied to the generator's current record. -/
def rowIterColumn {T : Type} (columns : List (ColumnDef T)) (eofFlag : Bool)
    (cur : T) (col : Int) : SqlValue :=
  if eofFlag then .null
  else if col < 0 then .null
  else
    match columns.drop col.toNat with
    | [] => .null
    | c :: _ => c.get cur

/-- Columns of the `data` table in declaration order
(`define_data_table`, pdb_tables.hpp:1820-1831). -/
def dataColumns : List (ColumnDef CachedSymbol) :=
  [ { name := "id", get := fun r => .int (r.id : Int) }
  , { name := "name", get := fun r => .text r.name }
  , { name := "rva", get := fun r => .int (r.rva : Int) }
  , { name := "length", get := fun r => .int (r.length : Int) }
  , { name := "section", get := fun r => .int (r.sect : Int) }
  , { name := "offset", get := fun r => .int (r.offset : Int) } ]

/-- State of a `GeneratorRowIterator` over a generator with state `σ`
(pdb_tables.hpp:914-956): the owned generator (`none` models the null
generator the filter factories install for out-of-range values), the EOF
flag (true until the first successful `next()`), and an instrumentation
counter of how many times the underlying generator's `next()` was invoked
(the spec's suggested way to observe laziness). -/
structure BridgeState (σ : Type) where
  gen : Option σ
  eofFlag : Bool := true
  calls : Nat := 0

/-- Step `GeneratorRowIterator::next` (pdb_tables.hpp:927-935): a null generator
is immediately EOF with no call into the source; otherwise exactly one
`gen_->next()` call decides the row. -/
def bridgeNext {σ : Type} (step : σ → Bool × σ) (st : BridgeState σ) :
    Bool × BridgeState σ :=
  match st.gen with
  | none => (false, { st with eofFlag := true })
  | some g =>
    match step g with
    | (false, g1) => (false, { st with gen := some g1, eofFlag := true, calls := st.calls + 1 })
    | (true, g1) => (true, { st with gen := some g1, eofFlag := false, calls := st.calls + 1 })

/-- Iterated bridge stepping: `n` consecutive `next()` calls on the bridge — the cursor movement a
`LIMIT n` consumer performs. -/
def bridgeIter {σ : Type} (step : σ → Bool × σ) (st : BridgeState σ) :
    Nat → BridgeState σ
  | 0 => st
  | n + 1 => bridgeIter step (bridgeNext step st).2 n

/-- The row iterator produced by the `functions` table's id filter factory
(pdb_tables.hpp:2079-2088): null generator for out-of-range values,
a fresh `SymbolByIdGenerator` otherwise. -/
def functionsIdFilterIter (v : Int) : BridgeState ByIdState :=
  if v ≤ 0 ∨ 0xFFFFFFFF < v then { gen := none }
  else { gen := some byIdInit }

/-- Result struct `xsql::socket::QueryResult`.
Modelled from the spec: the struct itself lives in the missing `xsql`
socket layer; the spec defines it as
`(success: bool, columns: [string], rows: [[string]], error: string)`. -/
structure QueryResult where
  success : Bool := true
  columns : List String := []
  rows : List (List String) := []
  error : String := ""
deriving DecidableEq

/-- One result row as delivered by the engine's row callback: per column a
possibly-null name (`col_names[i]`) and a possibly-null value (`argv[i]`). -/
abbrev RawRow := List (Option String × Option String)

/-- The row callback of `ServerQueryDispatcher::execute_sql`
(server_query_dispatcher.hpp:72-87): capture column names only on the
first row, append every row with null values mapped to the empty string.
The `Bool` component is `ctx.first_row`. -/
def rowCallback (acc : QueryResult × Bool) (row : RawRow) : QueryResult × Bool :=
  let res := acc.1
  let res :=
    if acc.2 then { res with columns := res.columns ++ row.map (fun p => p.1.getD "") }
    else res
  ({ res with rows := res.rows ++ [row.map (fun p => p.2.getD "")] }, false)

/-- Execution `ServerQueryDispatcher::execute_sql` (server_query_dispatcher.hpp:63-98).
The embedded engine's `Database.exec` is missing code; modelled from the
spec as delivering a list of rows to the callback plus a final status:
`none` for `SQLITE_OK`, `some msg` for a failure with `last_error()`
message `msg`.  On failure `success := false` and `error := msg`;
on success `success := true`. -/
def execute_sql (delivered : List RawRow) (rcErr : Option String) : QueryResult :=
  let folded := delivered.foldl rowCallback ({}, true)
  match rcErr with
  | some msg => { folded.1 with success := false, error := msg }
  | none => { folded.1 with success := true }

/-- A queued query job: insertion id (for bookkeeping) and SQL text. -/
structure Job where
  id : Nat
  sql : String
deriving DecidableEq

/-- How a job's promise is fulfilled (server_query_dispatcher.hpp:115-124):
`set_value` with the query result, or `set_exception` when execution
throws. -/
inductive Outcome where
  | completed (r : QueryResult)
  | failed
deriving DecidableEq

/-- State of the dispatcher (server_query_dispatcher.hpp:56-61) together
with the observable history: `queue` is `queue_` front-first, `stopFlag`
is `stop_`, `enqueued` records every `run()` insertion in mutex order, and
`resolved` records every promise fulfillment in order. -/
structure DispState where
  queue : List Job := []
  stopFlag : Bool := false
  workerExited : Bool := false
  enqueued : List Job := []
  resolved : List (Job × Outcome) := []
deriving DecidableEq

/-- Dispatcher right after construction. -/
def dispInit : DispState := {}

/-- The atomic actions of the dispatcher; each is one critical section of
the C++ code, so every thread interleaving is some sequence of these. -/
inductive Act where
  | enqueue (j : Job)
  | work
  | stop
  | exit
deriving DecidableEq

/-- One atomic step, given the engine `eval` that maps a job's SQL to its
outcome (the worker runs `execute_sql` and catches exceptions):
`enqueue` is the push in `run()` (server_query_dispatcher.hpp:42-45);
`work` is one worker iteration popping the front job and fulfilling its
promise (lines 103-124), a no-op when the queue is empty (the worker waits)
or the worker has exited; `stop` sets the stop flag (destructor, lines
28-32); `exit` is the worker observing `stop_ && queue_.empty()` and
breaking (line 108), a no-op otherwise. -/
def dispStep (eval : String → Outcome) (s : DispState) : Act → DispState
  | .enqueue j => { s with queue := s.queue ++ [j], enqueued := s.enqueued ++ [j] }
  | .work =>
    if s.workerExited then s
    else
      match s.queue with
      | [] => s
      | j :: rest => { s with queue := rest, resolved := s.resolved ++ [(j, eval j.sql)] }
  | .stop => { s with stopFlag := true }
  | .exit =>
    if s.workerExited = false ∧ s.stopFlag = true ∧ s.queue = [] then
      { s with workerExited := true }
    else s

/-- Run a sequence of atomic actions from a state. -/
def dispRun (eval : String → Outcome) (s : DispState) (acts : List Act) : DispState :=
  acts.foldl (dispStep eval) s

/-! Concrete objects used by counterexamples and witnesses. -/

/-- A data symbol that is reachable by `symbolById` but is not a child of
the global scope and has an accepted data kind — the shape of an enum
constant or a class-level constant in a real PDB (`SymTagData`,
`DataIsConstant`, child of an enum rather than of the global scope). -/
def symEnumConst : DiaSymbol :=
  { symIndexId := 5, tag := .Data, getName := some "kRed"
    getUndecoratedName := none, rva := 0, length := 0
    addressSection := 0, addressOffset := 0, getDataKind := some .Constant }

/-- A session whose global scope has no data children while `symEnumConst`
is still addressable by id. -/
def sessCex : PdbSessionModel :=
  { sessionOpen := true, globalScope := some [], allSymbols := [symEnumConst] }

/-- An ordinary global data symbol. -/
def symGlobalData : DiaSymbol :=
  { symIndexId := 1, tag := .Data, getName := some "g_counter"
    getUndecoratedName := none, rva := 4096, length := 4
    addressSection := 2, addressOffset := 16, getDataKind := some .Global }

/-- A data symbol whose `get_name` call fails. -/
def symBadName : DiaSymbol :=
  { symIndexId := 7, tag := .Data, getName := none
    getUndecoratedName := none, rva := 8, length := 4
    addressSection := 2, addressOffset := 32, getDataKind := some .Global }

/-- A small well-formed open session: one global data symbol, ids unique,
every by-id-reachable data symbol with an accepted kind is in the scope. -/
def sessW : PdbSessionModel :=
  { sessionOpen := true, globalScope := some [symGlobalData]
    allSymbols := [symGlobalData] }

/-- An enumeration source with two symbols, for exercising two consecutive
successful `next()` calls. -/
def srcW : Option (List DiaSymbol) := some [symGlobalData, symBadName]

/-- A session that was never opened (null DIA session and global scope). -/
def sessClosed : PdbSessionModel :=
  { sessionOpen := false, globalScope := none, allSymbols := [] }

/-- Concrete jobs for dispatcher traces. -/
def jobA : Job := { id := 1, sql := "SELECT 1" }

def jobB : Job := { id := 2, sql := "SELECT 2" }

/-- An engine under which every statement succeeds with an empty result. -/
def evalOk : String → Outcome := fun _ => .completed {}

/-! ## Dispatcher lemmas -/

/-- Every atomic step preserves the queue accounting invariant: the
enqueue history is the fulfillment history followed by the pending queue. -/
theorem dispStep_inv (eval : String → Outcome) (s : DispState) (a : Act)
    (h : s.enqueued = s.resolved.map Prod.fst ++ s.queue) :
    (dispStep eval s a).enqueued
      = (dispStep eval s a).resolved.map Prod.fst ++ (dispStep eval s a).queue := by
  cases a with
  | enqueue j => simp [dispStep, h]
  | work =>
    by_cases hw : s.workerExited <;> simp [dispStep, hw]
    · exact h
    · cases hq : s.queue with
      | nil => simpa [hq] using h
      | cons j rest => simp [hq] at h ⊢; simp [h]
  | stop => simpa [dispStep] using h
  | exit =>
    by_cases hc : s.workerExited = false ∧ s.stopFlag = true ∧ s.queue = [] <;>
      simpa [dispStep, hc] using h

/-- The invariant holds along every run. -/
theorem dispRun_inv (eval : String → Outcome) (acts : List Act) :
    ∀ s : DispState, s.enqueued = s.resolved.map Prod.fst ++ s.queue →
      (dispRun eval s acts).enqueued
        = (dispRun eval s acts).resolved.map Prod.fst ++ (dispRun eval s acts).queue := by
  induction acts with
  | nil => intro s h; simpa [dispRun] using h
  | cons a rest ih =>
    intro s h
    simpa [dispRun] using ih (dispStep eval s a) (dispStep_inv eval s a h)

/-- Draining: as long as the worker has not exited, one `work` step per
queued job resolves the whole queue in order, leaving it empty; the
enqueue history and the flags are untouched. -/
theorem dispRun_work_drain (eval : String → Outcome) :
    ∀ (q : List Job) (s : DispState), s.workerExited = false → s.queue = q →
      (dispRun eval s (List.replicate q.length .work)).resolved
          = s.resolved ++ q.map (fun j => (j, eval j.sql))
        ∧ (dispRun eval s (List.replicate q.length .work)).queue = []
        ∧ (dispRun eval s (List.replicate q.length .work)).enqueued = s.enqueued := by
  intro q
  induction q with
  | nil => intro s _ hq; simp [dispRun, hq]
  | cons j rest ih =>
    intro s hw hq
    have hstep : dispStep eval s .work
        = { s with queue := rest, resolved := s.resolved ++ [(j, eval j.sql)] } := by
      simp [dispStep, hw, hq]
    have hrec := ih { s with queue := rest, resolved := s.resolved ++ [(j, eval j.sql)] } hw rfl
    simpa [dispRun, List.replicate_succ, hstep] using hrec

/-! ## Dispatcher claim theorems -/

/-- C3: jobs are served strictly FIFO.  In every interleaving of atomic
actions (all submissions totally ordered by the mutex-protected push), the
mutex-ordered enqueue history equals the fulfillment history followed by
the still-pending queue: jobs are dequeued, executed and their results
delivered exactly in enqueue order, so a job enqueued strictly earlier is
delivered no later. -/
theorem jobs_resolved_in_fifo_order (eval : String → Outcome) (acts : List Act) :
    (dispRun eval dispInit acts).enqueued
      = (dispRun eval dispInit acts).resolved.map Prod.fst
          ++ (dispRun eval dispInit acts).queue :=
  dispRun_inv eval acts dispInit rfl

/-- C2 (counterexample): a job enqueued before shutdown is signaled is not
"failed" by the shutdown path — in this trace (enqueue, then the stop flag
is set, then the worker drains and exits) the job's handle is fulfilled
with its ordinary successful result, not with an error. -/
theorem shutdown_jobs_not_failed_cex :
    (dispRun evalOk dispInit [.enqueue jobA, .stop, .work, .exit]).resolved
        = [(jobA, Outcome.completed { success := true, error := "" })]
      ∧ (dispRun evalOk dispInit [.enqueue jobA, .stop, .work, .exit]).workerExited = true := by
  decide

/-- C2 (amended): jobs already enqueued when shutdown is signaled are not
dropped: the worker exits only once `stop_ && queue_.empty()`, so from any
reachable state in which the worker is still running, one `work` step per
queued job fulfills every enqueued job's handle (with its actual outcome,
`completed` or `failed`), and the fulfillment history then covers the
whole enqueue history. -/
theorem shutdown_drains_all_enqueued_jobs (eval : String → Outcome) (acts : List Act)
    (h : (dispRun eval dispInit acts).workerExited = false) :
    (dispRun eval (dispRun eval dispInit acts)
        (List.replicate (dispRun eval dispInit acts).queue.length .work)).resolved.map Prod.fst
        = (dispRun eval dispInit acts).enqueued
      ∧ (dispRun eval (dispRun eval dispInit acts)
          (List.replicate (dispRun eval dispInit acts).queue.length .work)).queue = [] := by
  have hinv := dispRun_inv eval acts dispInit rfl
  have hdrain := dispRun_work_drain eval (dispRun eval dispInit acts).queue
    (dispRun eval dispInit acts) h rfl
  refine ⟨?_, hdrain.2.1⟩
  rw [hdrain.1]
  have hcomp : (Prod.fst ∘ fun j : Job => (j, eval j.sql)) = id := rfl
  simp [hinv, hcomp]

/-- C2 (witness): concrete instance — one job enqueued, stop signaled,
worker still running; draining resolves exactly that job. -/
theorem shutdown_drains_all_enqueued_jobs_witness :
    (dispRun evalOk (dispRun evalOk dispInit [.enqueue jobA, .stop])
        (List.replicate (dispRun evalOk dispInit [.enqueue jobA, .stop]).queue.length
          .work)).resolved.map Prod.fst
        = (dispRun evalOk dispInit [.enqueue jobA, .stop]).enqueued
      ∧ (dispRun evalOk (dispRun evalOk dispInit [.enqueue jobA, .stop])
          (List.replicate (dispRun evalOk dispInit [.enqueue jobA, .stop]).queue.length
            .work)).queue = [] :=
  shutdown_drains_all_enqueued_jobs evalOk [.enqueue jobA, .stop] (by decide)

/-- C4: a statement the embedded engine rejects yields a structured
`QueryResult` with `success = false` and the engine's (non-empty) message
— not a raised exception — and the dispatcher stays usable: with two jobs
queued, two worker iterations execute both in order, whatever the first
job's outcome was. -/
theorem sql_error_structured_result_and_dispatcher_usable
    (delivered : List RawRow) (msg : String) (hmsg : msg ≠ "")
    (eval : String → Outcome) (s : DispState) (j1 j2 : Job) (rest : List Job)
    (hw : s.workerExited = false) (hq : s.queue = j1 :: j2 :: rest) :
    ((execute_sql delivered (some msg)).success = false
        ∧ (execute_sql delivered (some msg)).error ≠ "")
      ∧ (dispStep eval (dispStep eval s .work) .work).resolved
          = s.resolved ++ [(j1, eval j1.sql), (j2, eval j2.sql)] := by
  constructor
  · exact ⟨by simp [execute_sql], by simpa [execute_sql] using hmsg⟩
  · have h1 : dispStep eval s .work
        = { s with queue := j2 :: rest, resolved := s.resolved ++ [(j1, eval j1.sql)] } := by
      simp [dispStep, hw, hq]
    rw [h1]
    simp [dispStep, hw]

/-- C4 (witness): concrete instance — a syntax-error message produces a
structured failure, and a dispatcher with two queued jobs executes both. -/
theorem sql_error_structured_result_and_dispatcher_usable_witness :
    ((execute_sql [] (some "near SELEC: syntax error")).success = false
        ∧ (execute_sql [] (some "near SELEC: syntax error")).error ≠ "")
      ∧ (dispStep evalOk (dispStep evalOk { queue := [jobA, jobB] } .work) .work).resolved
          = [] ++ [(jobA, evalOk jobA.sql), (jobB, evalOk jobB.sql)] :=
  sql_error_structured_result_and_dispatcher_usable [] "near SELEC: syntax error"
    (by decide) evalOk { queue := [jobA, jobB] } jobA jobB [] rfl rfl

/-- Once the first row has been seen (`first_row == false`), later rows
never touch the captured column names. -/
theorem foldl_rowCallback_columns (rows : List RawRow) :
    ∀ acc : QueryResult × Bool, acc.2 = false →
      (rows.foldl rowCallback acc).1.columns = acc.1.columns := by
  induction rows with
  | nil => intro acc _; rfl
  | cons r rest ih =>
    intro acc h
    have : rowCallback acc r
        = ({ acc.1 with rows := acc.1.rows ++ [r.map (fun p => p.2.getD "")] }, false) := by
      simp [rowCallback, h]
    simp only [List.foldl_cons, this]
    exact ih _ rfl

/-- C10: a successfully executed statement that delivers zero rows returns
`success = true` with empty `rows` and empty `columns` — column names are
captured only when the first result row arrives (for a non-empty delivery
they are exactly the first row's column names). -/
theorem zero_row_success_has_empty_columns :
    execute_sql [] none = { success := true, columns := [], rows := [], error := "" }
      ∧ ∀ (row : RawRow) (rest : List RawRow) (rcErr : Option String),
          (execute_sql (row :: rest) rcErr).columns = row.map (fun p => p.1.getD "") := by
  refine ⟨rfl, ?_⟩
  intro row rest rcErr
  have h2 := foldl_rowCallback_columns rest (rowCallback ({}, true) row) rfl
  cases rcErr <;>
    · simp only [execute_sql, List.foldl_cons]
      rw [h2]
      simp [rowCallback]

/-! ## Generator and bridge lemmas -/

/-- C6: the bridge is lazy.  One `GeneratorRowIterator::next` invokes the
generator's `next()` at most once (a null generator: never), and `n`
consecutive bridge `next()` calls — the cursor movement of a `LIMIT n`
full scan — cause at most `n` `next()` calls on the underlying source, as
recorded by the instrumentation counter. -/
theorem bridge_next_calls_generator_at_most_once {σ : Type}
    (step : σ → Bool × σ) (st : BridgeState σ) (n : Nat) :
    (bridgeNext step st).2.calls ≤ st.calls + 1
      ∧ (bridgeIter step st n).calls ≤ st.calls + n := by
  constructor
  · cases hg : st.gen with
    | none => simp [bridgeNext, hg]
    | some g =>
      cases hstep : step g with
      | mk ok g1 => cases ok <;> simp [bridgeNext, hg, hstep]
  · induction n generalizing st with
    | zero => simp [bridgeIter]
    | succ m ih =>
      have hone : (bridgeNext step st).2.calls ≤ st.calls + 1 := by
        cases hg : st.gen with
        | none => simp [bridgeNext, hg]
        | some g =>
          cases hstep : step g with
          | mk ok g1 => cases ok <;> simp [bridgeNext, hg, hstep]
      calc (bridgeIter step st (m + 1)).calls
          = (bridgeIter step (bridgeNext step st).2 m).calls := rfl
        _ ≤ (bridgeNext step st).2.calls + m := ih _
        _ ≤ st.calls + 1 + m := by omega
        _ = st.calls + (m + 1) := by omega

/-- A started streaming generator with pending list `l` emits exactly the
extraction of each element of `l`, given fuel at least `l.length`. -/
theorem genCollect_stream_started (source : Option (List DiaSymbol)) :
    ∀ (l : List DiaSymbol) (n : Nat) (st : SymbolGenState),
      st.started = true → st.pending = some l → l.length ≤ n →
      genCollect (streamGenNext source) (fun x => x.current) n st
        = l.map (fun s => extract_symbol (some s)) := by
  intro l
  induction l with
  | nil =>
    intro n st hst hp _
    cases n with
    | zero => simp [genCollect]
    | succ m => simp [genCollect, streamGenNext, hst, hp]
  | cons s rest ih =>
    intro n st hst hp hn
    cases n with
    | zero => simp at hn
    | succ m =>
      have hstep : streamGenNext source st
          = (true, { st with pending := some rest
                             current := extract_symbol (some s)
                             rowid := st.rowid + 1 }) := by
        simp [streamGenNext, hst, hp]
      have hrec := ih m
        { st with pending := some rest, current := extract_symbol (some s)
                  rowid := st.rowid + 1 }
        hst rfl (by simpa using Nat.succ_le_succ_iff.mp hn)
      simp [genCollect, hstep, hrec]

/-- From a fresh generator, a `some` enumeration of length at most `n`
is emitted in full with fuel `n + 1`. -/
theorem genCollect_stream_init_some (l : List DiaSymbol) (n : Nat) (hn : l.length ≤ n) :
    genCollect (streamGenNext (some l)) (fun x => x.current) (n + 1) symbolGenInit
      = l.map (fun s => extract_symbol (some s)) := by
  cases l with
  | nil => simp [genCollect, streamGenNext, symbolGenInit]
  | cons s rest =>
    have hstep : streamGenNext (some (s :: rest)) symbolGenInit
        = (true, { started := true, pending := some rest
                   current := extract_symbol (some s), rowid := 0 }) := by
      simp [streamGenNext, symbolGenInit]
    have hrest : rest.length ≤ n := by simp at hn; omega
    have hrec := genCollect_stream_started (some (s :: rest)) rest n
      { started := true, pending := some rest
        current := extract_symbol (some s), rowid := 0 } rfl rfl hrest
    simp [genCollect, hstep, hrec]

/-- From a fresh generator, a null enumeration emits nothing. -/
theorem genCollect_stream_init_none (n : Nat) :
    genCollect (streamGenNext none) (fun x => x.current) (n + 1) symbolGenInit = [] := by
  simp [genCollect, streamGenNext, symbolGenInit]

/-- A full scan produces exactly the extraction of the tag-matching
children of the global scope (empty when the scope is unreachable). -/
theorem symbolScanRows_eq (sess : PdbSessionModel) (tag : SymTag) :
    symbolScanRows sess tag
      = (sess.globals.filter (fun s => s.tag == tag)).map
          (fun s => extract_symbol (some s)) := by
  unfold symbolScanRows symbolGenNext
  cases hg : sess.globalScope with
  | none =>
    have : enum_symbols sess tag = none := by simp [enum_symbols, hg]
    rw [this]
    simp [genCollect_stream_init_none, PdbSessionModel.globals, hg]
  | some gl =>
    have hglobals : sess.globals = gl := by simp [PdbSessionModel.globals, hg]
    have : enum_symbols sess tag = some (gl.filter (fun s => s.tag == tag)) := by
      simp [enum_symbols, hg]
    rw [this, hglobals]
    exact genCollect_stream_init_some _ _ (List.length_filter_le _ _)

/-- A name-filtered scan produces exactly the extraction of the
tag-and-name-matching children of the global scope. -/
theorem symbolByNameRows_eq (sess : PdbSessionModel) (tag : SymTag) (name : String) :
    symbolByNameRows sess tag name
      = (sess.globals.filter (fun s => s.tag == tag && s.getName.getD "" == name)).map
          (fun s => extract_symbol (some s)) := by
  unfold symbolByNameRows byNameNext
  cases hg : sess.globalScope with
  | none =>
    have : find_symbols sess name tag = none := by simp [find_symbols, hg]
    rw [this]
    simp [genCollect_stream_init_none, PdbSessionModel.globals, hg]
  | some gl =>
    have hglobals : sess.globals = gl := by simp [PdbSessionModel.globals, hg]
    have : find_symbols sess name tag
        = some (gl.filter (fun s => s.tag == tag && s.getName.getD "" == name)) := by
      simp [find_symbols, hg]
    rw [this, hglobals]
    exact genCollect_stream_init_some _ _ (List.length_filter_le _ _)

/-- The by-id generator emits the looked-up symbol exactly when it exists,
has the requested tag and passes the accept predicate. -/
theorem byIdRows_eq (sess : PdbSessionModel) (id : Nat) (tag : SymTag)
    (accept : DiaSymbol → Bool) :
    byIdRows sess id tag accept
      = match symbolById sess id with
        | none => []
        | some s =>
          if s.tag = tag ∧ accept s then [extract_symbol (some s)] else [] := by
  cases hfind : symbolById sess id with
  | none => simp [byIdRows, genCollect, byIdNext, byIdInit, hfind]
  | some s =>
    by_cases htag : s.tag = tag
    · by_cases hacc : accept s
      · simp [byIdRows, genCollect, byIdNext, byIdInit, hfind, htag, hacc]
      · simp [byIdRows, genCollect, byIdNext, byIdInit, hfind, htag, hacc]
    · simp [byIdRows, genCollect, byIdNext, byIdInit, hfind, htag]

/-- By-id scan when the lookup fails: no rows. -/
theorem byIdRows_none (sess : PdbSessionModel) (id : Nat) (tag : SymTag)
    (accept : DiaSymbol → Bool) (h : symbolById sess id = none) :
    byIdRows sess id tag accept = [] := by
  simp [byIdRows_eq, h]

/-- By-id scan when the lookup succeeds: one row if tag and accept agree. -/
theorem byIdRows_some (sess : PdbSessionModel) (id : Nat) (tag : SymTag)
    (accept : DiaSymbol → Bool) (s : DiaSymbol) (h : symbolById sess id = some s) :
    byIdRows sess id tag accept
      = if s.tag = tag ∧ accept s = true then [extract_symbol (some s)] else [] := by
  simp only [byIdRows_eq, h]

/-- A successful `next()` of a streaming generator advances the rowid by
exactly one. -/
theorem streamGenNext_rowid (source : Option (List DiaSymbol))
    (st st1 : SymbolGenState) (h : streamGenNext source st = (true, st1)) :
    st1.rowid = st.rowid + 1 := by
  by_cases hst : st.started = true
  · cases hp : st.pending with
    | none => simp [streamGenNext, hst, hp] at h
    | some l =>
      cases l with
      | nil => simp [streamGenNext, hst, hp] at h
      | cons s rest =>
        simp [streamGenNext, hst, hp] at h
        rw [← h]
  · have hst2 : st.started = false := by simpa using hst
    cases hp : source with
    | none => simp [streamGenNext, hst2, hp] at h
    | some l =>
      cases l with
      | nil => simp [streamGenNext, hst2, hp] at h
      | cons s rest =>
        simp [streamGenNext, hst2, hp] at h
        rw [← h]

/-- A successful `next()` of the by-id generator marks it emitted. -/
theorem byIdNext_emitted (sess : PdbSessionModel) (id : Nat) (tag : SymTag)
    (accept : DiaSymbol → Bool) (st st1 : ByIdState)
    (h : byIdNext sess id tag accept st = (true, st1)) : st1.emitted = true := by
  by_cases he : st.emitted = true
  · simp [byIdNext, he] at h
  · have he2 : st.emitted = false := by simpa using he
    cases hfind : symbolById sess id with
    | none => simp [byIdNext, he2, hfind] at h
    | some s =>
      by_cases htag : s.tag = tag
      · by_cases hacc : accept s
        · simp [byIdNext, he2, hfind, htag, hacc] at h
          rw [← h]
        · simp [byIdNext, he2, hfind, htag, hacc] at h
      · simp [byIdNext, he2, hfind, htag] at h

/-! ## Generator claim theorems -/

/-- C7: `rowid()` is strictly increasing across consecutive successful
`next()` calls of one generator instance.  For the streaming generators
(`SymbolGenerator` and `SymbolByNameGenerator` are both `streamGenNext`
instances) every success increments the rowid; for `SymbolByIdGenerator`
a success marks the generator emitted, so the very next call fails — two
consecutive successes are impossible and the invariant holds. -/
theorem generator_rowid_strictly_increasing :
    (∀ (source : Option (List DiaSymbol)) (st st1 st2 : SymbolGenState),
        streamGenNext source st = (true, st1) → streamGenNext source st1 = (true, st2) →
        st1.rowid < st2.rowid)
      ∧ (∀ (sess : PdbSessionModel) (id : Nat) (tag : SymTag)
          (accept : DiaSymbol → Bool) (st st1 : ByIdState),
          byIdNext sess id tag accept st = (true, st1) →
          (byIdNext sess id tag accept st1).1 = false) := by
  constructor
  · intro source st st1 st2 _ h2
    have := streamGenNext_rowid source st1 st2 h2
    omega
  · intro sess id tag accept st st1 h
    have he := byIdNext_emitted sess id tag accept st st1 h
    simp [byIdNext, he]

/-- C7 (witness): two consecutive successful calls on a concrete two-symbol
enumeration have increasing rowids, and a concrete by-id success is
followed by exhaustion. -/
theorem generator_rowid_strictly_increasing_witness :
    ((streamGenNext srcW symbolGenInit).2.rowid
        < (streamGenNext srcW (streamGenNext srcW symbolGenInit).2).2.rowid)
      ∧ (byIdNext sessW 1 .Data acceptDataKind
          (byIdNext sessW 1 .Data acceptDataKind byIdInit).2).1 = false :=
  ⟨generator_rowid_strictly_increasing.1 srcW symbolGenInit
      (streamGenNext srcW symbolGenInit).2
      (streamGenNext srcW (streamGenNext srcW symbolGenInit).2).2
      (by decide) (by decide),
    generator_rowid_strictly_increasing.2 sessW 1 .Data acceptDataKind byIdInit
      (byIdNext sessW 1 .Data acceptDataKind byIdInit).2 (by decide)⟩

/-- C9: when a table's backing resource cannot be reached as a scan begins
(the session is not open, so the global scope is a null pointer and
`enum_children` returns a null enumeration), the generator's first
`next()` returns false and the whole scan is empty — the table behaves as
an empty table; no error value exists on this path. -/
theorem unavailable_source_behaves_as_empty_table
    (sess : PdbSessionModel) (tag : SymTag) (h : sess.globalScope = none) :
    (symbolGenNext sess tag symbolGenInit).1 = false
      ∧ symbolScanRows sess tag = [] := by
  constructor
  · simp [symbolGenNext, streamGenNext, enum_symbols, h, symbolGenInit]
  · simp [symbolScanRows_eq, PdbSessionModel.globals, h]

/-- C9 (witness): the concrete never-opened session yields an immediately
exhausted scan. -/
theorem unavailable_source_behaves_as_empty_table_witness :
    (symbolGenNext sessClosed .Function symbolGenInit).1 = false
      ∧ symbolScanRows sessClosed .Function = [] :=
  unavailable_source_behaves_as_empty_table sessClosed .Function rfl

/-- C5 (counterexample): a failed per-column extraction does not surface
as SQL null.  For a symbol whose `get_name` fails, `extract_symbol` stores
the empty string, and the bridge's read of the `name` column (index 1 of
the `data` table) writes `text ""`, not null. -/
theorem extraction_failure_not_null_cex :
    symBadName.getName = none
      ∧ rowIterColumn dataColumns false (extract_symbol (some symBadName)) 1
          = SqlValue.text ""
      ∧ rowIterColumn dataColumns false (extract_symbol (some symBadName)) 1
          ≠ SqlValue.null := by
  decide

/-- C5 (amended): a failed extraction does not abort the scan — the failed
field is stored as its zero/empty default (`""` for `name`, via
`safe_symbol_name`/`extract_symbol`), the bridge's column read writes that
default value, and `next()` still succeeds on such a symbol; the bridge
writes null exactly at EOF or for an out-of-range column index, and only a
dead enumeration (`pending = none`, the source-level failure) makes
`next()` return false. -/
theorem extraction_failure_defaults_and_scan_continues
    (s : DiaSymbol) (hname : s.getName = none)
    (sess : PdbSessionModel) (tag : SymTag) (st : SymbolGenState)
    (rest : List DiaSymbol)
    (hstarted : st.started = true) (hpend : st.pending = some (s :: rest)) :
    safe_symbol_name (some s) = ""
      ∧ (extract_symbol (some s)).name = ""
      ∧ rowIterColumn dataColumns false (extract_symbol (some s)) 1 = SqlValue.text ""
      ∧ (symbolGenNext sess tag st).1 = true
      ∧ (∀ (r : CachedSymbol) (c : Int), rowIterColumn dataColumns true r c = SqlValue.null)
      ∧ (∀ r : CachedSymbol, rowIterColumn dataColumns false r 6 = SqlValue.null)
      ∧ (∀ st2 : SymbolGenState, st2.started = true → st2.pending = none →
          (symbolGenNext sess tag st2).1 = false) := by
  refine ⟨?_, ?_, ?_, ?_, ?_, ?_, ?_⟩
  · simp [safe_symbol_name, hname]
  · simp [extract_symbol, hname]
  · simp [rowIterColumn, dataColumns, extract_symbol, hname]
  · simp [symbolGenNext, streamGenNext, hstarted, hpend]
  · intro r c; simp [rowIterColumn]
  · intro r; simp [rowIterColumn, dataColumns]
  · intro st2 h1 h2; simp [symbolGenNext, streamGenNext, h1, h2]

/-- C5 (witness): concrete instance at `symBadName`, mid-scan. -/
theorem extraction_failure_defaults_and_scan_continues_witness :
    safe_symbol_name (some symBadName) = ""
      ∧ (extract_symbol (some symBadName)).name = ""
      ∧ rowIterColumn dataColumns false (extract_symbol (some symBadName)) 1
          = SqlValue.text ""
      ∧ (symbolGenNext sessW .Data
          { started := true, pending := some [symBadName] }).1 = true
      ∧ (∀ (r : CachedSymbol) (c : Int), rowIterColumn dataColumns true r c = SqlValue.null)
      ∧ (∀ r : CachedSymbol, rowIterColumn dataColumns false r 6 = SqlValue.null)
      ∧ (∀ st2 : SymbolGenState, st2.started = true → st2.pending = none →
          (symbolGenNext sessW .Data st2).1 = false) :=
  extraction_failure_defaults_and_scan_continues symBadName rfl sessW .Data
    { started := true, pending := some [symBadName] } [] rfl rfl

/-- C8: an equality-filter constraint value outside the key space yields an
empty result, not an error: for the `functions` id filter, a value `v ≤ 0`
or `v > 0xFFFFFFFF` gets a null generator whose bridge `next()` is
immediately false, and an in-range id that does not resolve to any symbol
makes the by-id generator's first `next()` false; either way the filtered
row set is empty. -/
theorem out_of_domain_filter_value_yields_empty
    (sess : PdbSessionModel) (v : Int)
    (h : v ≤ 0 ∨ 0xFFFFFFFF < v ∨ symbolById sess v.toNat = none) :
    (bridgeNext (byIdNext sess v.toNat .Function (fun _ => true))
        (functionsIdFilterIter v)).1 = false
      ∧ functionsIdFilterRows sess v = [] := by
  by_cases hrange : v ≤ 0 ∨ (0xFFFFFFFF : Int) < v
  · constructor
    · simp [functionsIdFilterIter, hrange, bridgeNext]
    · simp [functionsIdFilterRows, hrange]
  · have hfind : symbolById sess v.toNat = none := by
      rcases h with h1 | h2 | h3
      · exact absurd (Or.inl h1) hrange
      · exact absurd (Or.inr h2) hrange
      · exact h3
    constructor
    · simp [functionsIdFilterIter, hrange, bridgeNext, byIdNext, byIdInit, hfind]
    · simp [functionsIdFilterRows, hrange, byIdRows_eq, hfind]

/-- C8 (witness): a negative id on the concrete open session yields an
immediately exhausted iterator and an empty filtered row set. -/
theorem out_of_domain_filter_value_yields_empty_witness :
    (bridgeNext (byIdNext sessW (Int.toNat (-3)) .Function (fun _ => true))
        (functionsIdFilterIter (-3))).1 = false
      ∧ functionsIdFilterRows sessW (-3) = [] :=
  out_of_domain_filter_value_yields_empty sessW (-3) (Or.inl (by decide))

/-! ## Helpers for the filtered-scan versus full-scan comparison -/

/-- In a list with pairwise-distinct symbol ids, two members with the same
id are the same symbol. -/
theorem id_unique_of_pairwise (l : List DiaSymbol)
    (hpw : l.Pairwise (fun a b => a.symIndexId ≠ b.symIndexId)) :
    ∀ a ∈ l, ∀ b ∈ l, a.symIndexId = b.symIndexId → a = b := by
  induction l with
  | nil => intro a ha; simp at ha
  | cons x t ih =>
    rw [List.pairwise_cons] at hpw
    intro a ha b hb heq
    rcases List.mem_cons.mp ha with rfl | ha2
    · rcases List.mem_cons.mp hb with rfl | hb2
      · rfl
      · exact absurd heq (hpw.1 b hb2)
    · rcases List.mem_cons.mp hb with rfl | hb2
      · exact absurd heq.symm (hpw.1 a ha2)
      · exact ih hpw.2 a ha2 b hb2 heq

/-- Filtering a pairwise-distinct-id list down to one key keeps exactly the
unique member carrying that key (when it satisfies the side predicate). -/
theorem filter_key_of_pairwise (k : Nat) (q : DiaSymbol → Bool) :
    ∀ (l : List DiaSymbol),
      l.Pairwise (fun a b => a.symIndexId ≠ b.symIndexId) →
      ∀ s ∈ l, s.symIndexId = k →
      l.filter (fun a => q a && (a.symIndexId == k)) = if q s then [s] else [] := by
  intro l
  induction l with
  | nil => intro _ s hs; simp at hs
  | cons x t ih =>
    intro hpw s hs hk
    rw [List.pairwise_cons] at hpw
    rcases List.mem_cons.mp hs with rfl | hs2
    · have ht : t.filter (fun a => q a && (a.symIndexId == k)) = [] := by
        rw [List.filter_eq_nil_iff]
        intro a ha
        have hne : a.symIndexId ≠ k := fun hc => hpw.1 a ha (hk.trans hc.symm)
        simp [hne]
      by_cases hq : q s
      · simp [List.filter_cons, hq, hk, ht]
      · simp [List.filter_cons, hq, ht]
    · have hx : x.symIndexId ≠ k := by
        intro hxk
        have := hpw.1 s hs2
        rw [hxk, hk] at this
        exact this rfl
      have hrec := ih hpw.2 s hs2 hk
      simp [List.filter_cons, hx, hrec]

/-- Casting a machine id to int64 and comparing with an in-range int64
constraint value is the same as comparing the ids as naturals. -/
theorem natcast_beq_int (n : Nat) (v : Int) (hv : 0 ≤ v) :
    ((n : Int) == v) = (n == v.toNat) := by
  by_cases h : n = v.toNat
  · have h2 : (n : Int) = v := by omega
    simp [h, h2, hv]
  · have h2 : (n : Int) ≠ v := by omega
    simp [h, h2]

/-- Post-filtering a mapped list is filtering before mapping. -/
theorem filter_map_comm {α β : Type} (f : α → β) (p : β → Bool) (l : List α) :
    (l.map f).filter p = (l.filter (fun a => p (f a))).map f := by
  induction l with
  | nil => rfl
  | cons a t ih => by_cases h : p (f a) <;> simp [List.filter_cons, h, ih]

/-! ## Filtered scan versus full scan (claim C1) -/

/-- C1 (counterexample): the claimed row-set equality fails on the code as
soon as `symbolById` can reach a `SymTagData` symbol with an accepted data
kind that is not a child of the global scope (the shape of an enum
constant in a real PDB): in `sessCex` the id-filtered scan of the `data`
table for `id = 5` returns that symbol while the full scan of the table is
empty, so the filtered scan is not the id-restricted full scan. -/
theorem data_id_filter_not_full_scan_subset_cex :
    dataIdFilterRows sessCex 5 = [extract_symbol (some symEnumConst)]
      ∧ (dataFullScanRows sessCex).filter (fun r => (r.id : Int) == 5) = []
      ∧ dataIdFilterRows sessCex 5
          ≠ (dataFullScanRows sessCex).filter (fun r => (r.id : Int) == 5) := by
  decide

/-- C1 (amended): for a fully open session whose source satisfies the DIA
shape invariants — the global-scope children are among the by-id-reachable
symbols, symbol ids are pairwise distinct, global-scope ids lie in
`[1, 0xFFFFFFFF]`, and a reachable `SymTagData` symbol is a child of the
global scope exactly when its data kind is file-static, global or constant
— the `data` table's id-filtered scan and name-filtered scan each produce
exactly the rows of the full scan restricted to `id = v` (resp.
`name = w`). -/
theorem data_filtered_scan_eq_full_scan_restricted
    (sess : PdbSessionModel) (gl : List DiaSymbol) (v : Int) (w : String)
    (hscope : sess.globalScope = some gl)
    (hopen : sess.sessionOpen = true)
    (hsub : gl.Sublist sess.allSymbols)
    (huniq : sess.allSymbols.Pairwise (fun a b => a.symIndexId ≠ b.symIndexId))
    (hrange : ∀ s ∈ gl, 1 ≤ s.symIndexId ∧ s.symIndexId ≤ 0xFFFFFFFF)
    (hkind : ∀ s ∈ sess.allSymbols, s.tag = SymTag.Data →
        (s ∈ gl ↔ acceptDataKind s = true)) :
    dataIdFilterRows sess v
        = (dataFullScanRows sess).filter (fun r => (r.id : Int) == v)
      ∧ dataNameFilterRows sess w
          = (dataFullScanRows sess).filter (fun r => r.name == w) := by
  have hglobals : sess.globals = gl := by simp [PdbSessionModel.globals, hscope]
  have hfull : dataFullScanRows sess
      = (gl.filter (fun s => s.tag == SymTag.Data)).map
          (fun s => extract_symbol (some s)) := by
    rw [dataFullScanRows, symbolScanRows_eq, hglobals]
  constructor
  · by_cases hout : v ≤ 0 ∨ (0xFFFFFFFF : Int) < v
    · have hnil : (dataFullScanRows sess).filter (fun r => (r.id : Int) == v) = [] := by
        rw [hfull, filter_map_comm]
        have : (gl.filter (fun s => s.tag == SymTag.Data)).filter
            (fun s => ((extract_symbol (some s)).id : Int) == v) = [] := by
          rw [List.filter_eq_nil_iff]
          intro a ha
          have hr := hrange a (List.mem_of_mem_filter ha)
          have hne : ((extract_symbol (some a)).id : Int) ≠ v := by
            simp only [extract_symbol]
            omega
          simp [hne]
        rw [this]
        rfl
      rw [dataIdFilterRows, if_pos hout, hnil]
    · have hv : 0 < v ∧ v ≤ 0xFFFFFFFF := by
        push_neg at hout
        omega
      have hvnat : ((v.toNat : Int)) = v := Int.toNat_of_nonneg (by omega)
      have hRHS : (dataFullScanRows sess).filter (fun r => (r.id : Int) == v)
          = (gl.filter (fun a => (a.tag == SymTag.Data) && (a.symIndexId == v.toNat))).map
              (fun s => extract_symbol (some s)) := by
        rw [hfull, filter_map_comm, List.filter_filter]
        congr 1
        apply List.filter_congr
        intro a _
        have : (((extract_symbol (some a)).id : Int) == v) = (a.symIndexId == v.toNat) := by
          simp only [extract_symbol]
          exact natcast_beq_int a.symIndexId v (by omega)
        simp [this, Bool.and_comm]
      rw [dataIdFilterRows, if_neg hout]
      have hpw_gl : gl.Pairwise (fun a b => a.symIndexId ≠ b.symIndexId) :=
        List.Pairwise.sublist hsub huniq
      cases hfind : symbolById sess v.toNat with
      | none =>
        have hnone : ∀ a ∈ sess.allSymbols, ¬(a.symIndexId == v.toNat) = true := by
          have := hfind
          rw [symbolById, if_pos (by simp [hopen])] at this
          exact fun a ha => List.find?_eq_none.mp this a ha
        have hfilnil : gl.filter
            (fun a => (a.tag == SymTag.Data) && (a.symIndexId == v.toNat)) = [] := by
          rw [List.filter_eq_nil_iff]
          intro a ha
          have := hnone a (hsub.subset ha)
          simp at this
          simp [this]
        rw [byIdRows_none sess v.toNat SymTag.Data acceptDataKind hfind, hRHS, hfilnil]
        simp
      | some s =>
        have hfind2 : sess.allSymbols.find? (fun a => a.symIndexId == v.toNat) = some s := by
          have := hfind
          rwa [symbolById, if_pos (by simp [hopen])] at this
        have hsmem : s ∈ sess.allSymbols := List.mem_of_find?_eq_some hfind2
        have hsid : s.symIndexId = v.toNat := by
          have := List.find?_some hfind2
          simpa using this
        rw [byIdRows_some sess v.toNat SymTag.Data acceptDataKind s hfind, hRHS]
        by_cases hcond : s.tag = SymTag.Data ∧ acceptDataKind s = true
        · have hsgl : s ∈ gl := (hkind s hsmem hcond.1).mpr hcond.2
          rw [if_pos hcond,
            filter_key_of_pairwise v.toNat (fun a => a.tag == SymTag.Data) gl hpw_gl
              s hsgl hsid]
          simp [hcond.1]
        · rw [if_neg hcond]
          have hfilnil : gl.filter
              (fun a => (a.tag == SymTag.Data) && (a.symIndexId == v.toNat)) = [] := by
            rw [List.filter_eq_nil_iff]
            intro a ha hpred
            have htag : a.tag = SymTag.Data := by
              have := (Bool.and_eq_true _ _).mp hpred
              simpa using this.1
            have haid : a.symIndexId = v.toNat := by
              have := (Bool.and_eq_true _ _).mp hpred
              simpa using this.2
            have heqs : a = s :=
              id_unique_of_pairwise sess.allSymbols huniq a (hsub.subset ha) s hsmem
                (haid.trans hsid.symm)
            apply hcond
            constructor
            · rw [← heqs]; exact htag
            · exact (hkind s hsmem (heqs ▸ htag)).mp (heqs ▸ ha)
          rw [hfilnil]
          simp
  · rw [dataNameFilterRows, symbolByNameRows_eq, hglobals, hfull, filter_map_comm,
      List.filter_filter]
    congr 1
    apply List.filter_congr
    intro a _
    simp [extract_symbol, Bool.and_comm]

/-- C1 (witness): on the concrete well-formed one-symbol session the
id-filtered and name-filtered scans of the `data` table equal the
correspondingly restricted full scan. -/
theorem data_filtered_scan_eq_full_scan_restricted_witness :
    dataIdFilterRows sessW 1
        = (dataFullScanRows sessW).filter (fun r => (r.id : Int) == 1)
      ∧ dataNameFilterRows sessW "g_counter"
          = (dataFullScanRows sessW).filter (fun r => r.name == "g_counter") :=
  data_filtered_scan_eq_full_scan_restricted sessW [symGlobalData] 1 "g_counter"
    rfl rfl (List.Sublist.refl _) (by simp [sessW]) (by decide) (by decide)

end PdbSql
